import Mathlib

/-!
Verification of the promise-rejection-reason rule (`prefer-promise-reject-errors`).

The rule analyses a JavaScript syntax tree and reports every promise-rejection
site whose rejection reason is not provably Error-like.  We embed the rule's
data model (expression nodes, parameter patterns, scope-resolver variables and
references) and its three components:

* `checkRejectCall` — the argument validator (returns `true` when a violation
  is reported);
* `isPromiseRejectCall` — the call-site classifier for direct
  `Promise.reject(...)` calls;
* `newExpressionExit` — the callback-reject locator run on
  `NewExpression:exit`, which uses the external scope resolver to find the
  invocations of the callback's second (reject) parameter.

The external collaborators (the error-likeness predicate `couldBeError` and the
scope resolver `getDeclaredVariables`) are parameters of the embedding, since
the rule consumes them as black boxes.
-/

namespace PromiseRejectRule

/-- A parameter pattern of a function-like node.  `ident` is a simple
identifier parameter; the other constructors are the non-simple shapes
(destructuring patterns, default values, rest elements). -/
inductive Pat where
  | ident (name : String)
  | objectPat
  | arrayPat
  | assignmentPat
  | restElement
  deriving Repr, DecidableEq

/-- Expression nodes of the syntax tree, restricted to the kind tags the rule
inspects.  `other` stands for any further node kind and carries its child
expressions so that traversal can descend through it. -/
inductive Expr where
  | ident (name : String)
  | lit (raw : String)
  | member (obj : Expr) (prop : Expr) (computed : Bool)
  | call (calleeE : Expr) (args : List Expr)
  | newE (calleeE : Expr) (args : List Expr)
  | functionE (params : List Pat) (body : List Expr)
  | arrowFunctionE (params : List Pat) (body : List Expr)
  | other (children : List Expr)
  deriving Repr

/-- The `arguments` field of a call or `new` expression (empty elsewhere). -/
def Expr.arguments : Expr → List Expr
  | .call _ args => args
  | .newE _ args => args
  | _ => []

/-- The `callee` field of a call or `new` expression. -/
def Expr.callee : Expr → Option Expr
  | .call c _ => some c
  | .newE c _ => some c
  | _ => none

/-- The `params` list of a function-like node (empty elsewhere). -/
def Expr.params : Expr → List Pat
  | .functionE ps _ => ps
  | .arrowFunctionE ps _ => ps
  | _ => []

/-- Whether a node's kind tag is `CallExpression`. -/
def Expr.isCallExpression : Expr → Bool
  | .call _ _ => true
  | _ => false

/-- `checkRejectCall` from the rule.  Mirrors the source:
the first guard returns without reporting when the argument list is empty and
`allowEmptyReject` is set; otherwise a violation is reported iff the argument
list is empty, or the first argument fails `couldBeError`, or the first
argument is the identifier literally named `undefined`.  (The source reads
`arguments[0]` only behind the short-circuit guard `arguments.length ≠ 0`,
which the match on the argument list reproduces.)  Returns `true` exactly when
a violation is reported for `callExpression`. -/
def checkRejectCall (allowEmptyReject : Bool) (couldBeError : Expr → Bool)
    (callExpression : Expr) : Bool :=
  match callExpression.arguments with
  | [] => !allowEmptyReject
  | firstArg :: _ =>
      !couldBeError firstArg ||
        (match firstArg with
         | .ident name => name == "undefined"
         | _ => false)

/-- Modelled from the spec: `astUtils.isSpecificMemberAccess` (the file
`utils/ast-utils` is not among the sources).  The spec defines the check as
"its callee is a member-access expression of the exact shape
`<identifier "Promise">.<identifier "reject">` — purely syntactic name
matching, no binding resolution, no type information". -/
def isSpecificMemberAccess (node : Expr) (objectName propertyName : String) : Bool :=
  match node with
  | .member (.ident o) (.ident p) false => o == objectName && p == propertyName
  | _ => false

/-- `isPromiseRejectCall` from the rule: whether `node.callee` is the member
access `Promise.reject`.  (The rule only invokes it on `CallExpression`
nodes, which always have a callee.) -/
def isPromiseRejectCall (node : Expr) : Bool :=
  match node.callee with
  | some c => isSpecificMemberAccess c "Promise" "reject"
  | none => false

/-- Modelled from the spec: `astUtils.isFunction` (the file `utils/ast-utils`
is not among the sources).  The spec requires the argument to be a
function-like node, "ordinary function or arrow". -/
def isFunction : Expr → Bool
  | .functionE _ _ => true
  | .arrowFunctionE _ _ => true
  | _ => false

/-- A scope-resolver reference to a variable: whether the usage reads the
variable (`ref.isRead()`), the immediately enclosing node of the reference's
identifier (`ref.identifier.parent`), and whether the reference's identifier
occupies the callee position of that enclosing node
(`ref.identifier === ref.identifier.parent.callee`). -/
structure Reference where
  isRead : Bool
  parent : Expr
  isCallee : Bool

/-- A scope-resolver variable binding: its name and its ordered reference
list. -/
structure VarBinding where
  name : String
  references : List Reference

/-- The reference pipeline of the `NewExpression:exit` handler: from a
binding's reference list, keep the references that read the variable and
whose identifier is the callee of an enclosing `CallExpression`
(`reject(...)` invocations, not `reject` used as a value). -/
def survivingRefs (binding : VarBinding) : List Reference :=
  binding.references.filter (fun ref => ref.isRead)
    |>.filter (fun ref => ref.parent.isCallExpression && ref.isCallee)

/-- The first two guard conjuncts of the `NewExpression:exit` handler,
`node.callee.type === "Identifier" && node.callee.name === "Promise"`. -/
def calleeIsPromiseIdent : Expr → Bool
  | .ident n => n == "Promise"
  | _ => false

/-- The `NewExpression:exit` handler of the rule.  The guard requires the
callee to be the bare identifier `Promise`, a non-empty argument list whose
first element is function-like with more than one parameter, the second
parameter being a simple identifier (the match on `params[1]?` embeds
`params.length > 1 && params[1].type === "Identifier"`).  It then asks the
scope resolver (`getDeclaredVariables`, external) for the callback's declared
variables, takes the first one named like the second parameter, filters its
references down to read references invoked as callees, and runs
`checkRejectCall` on each such enclosing call.

The result is the list of reported call expressions, in reference order.
`none` models the runtime fault that the source would raise if `find`
returned no variable (dereferencing `undefined.references`); every other
shape produces `some` of a (possibly empty) report list. -/
def newExpressionExit (allowEmptyReject : Bool) (couldBeError : Expr → Bool)
    (getDeclaredVariables : Expr → List VarBinding) (node : Expr) :
    Option (List Expr) :=
  match node with
  | .newE calleeE (firstArg :: _) =>
      if calleeIsPromiseIdent calleeE && isFunction firstArg then
        match firstArg.params[1]? with
        | some (Pat.ident secondParamName) =>
            match (getDeclaredVariables firstArg).find?
                (fun binding => binding.name == secondParamName) with
            | some binding =>
                some ((survivingRefs binding).filter
                    (fun ref => checkRejectCall allowEmptyReject couldBeError ref.parent)
                  |>.map (fun ref => ref.parent))
            | none => none
        | _ => some []
      else some []
  | _ => some []

/-- Whether the `NewExpression:exit` guard's callee test fires: the node is a
`new` expression whose callee is the bare identifier `Promise`. -/
def isBarePromiseNew : Expr → Bool
  | .newE calleeE _ => calleeIsPromiseIdent calleeE
  | _ => false

/-- The `CallExpression` handler of the rule: report `node` iff it is a
direct `Promise.reject(...)` call that `checkRejectCall` rejects. -/
def callExpressionHandler (allowEmptyReject : Bool) (couldBeError : Expr → Bool)
    (node : Expr) : List Expr :=
  match node with
  | .call _ _ =>
      if isPromiseRejectCall node &&
          checkRejectCall allowEmptyReject couldBeError node then [node] else []
  | _ => []

/-- One traversal step: the reports fired at `node` itself — the
`CallExpression` handler on entry, the child reports in document order, and
the `NewExpression:exit` handler on leaving the subtree (the source registers
the locator on `NewExpression:exit` so that `parent` links are resolvable). -/
def withHandlers (allowEmptyReject : Bool) (couldBeError : Expr → Bool)
    (getDeclaredVariables : Expr → List VarBinding) (node : Expr)
    (childReports : Option (List Expr)) : Option (List Expr) := do
  let kids ← childReports
  let exitReports ← newExpressionExit allowEmptyReject couldBeError getDeclaredVariables node
  pure (callExpressionHandler allowEmptyReject couldBeError node ++ kids ++ exitReports)

mutual

/-- The analysis run of `create`: a single depth-first pass over the tree,
firing the `CallExpression` handler on node entry and the
`NewExpression:exit` handler on node completion, accumulating reported nodes
in traversal order. -/
def analyzeExpr (allowEmptyReject : Bool) (couldBeError : Expr → Bool)
    (getDeclaredVariables : Expr → List VarBinding) : Expr → Option (List Expr)
  | .ident n =>
      withHandlers allowEmptyReject couldBeError getDeclaredVariables (.ident n) (some [])
  | .lit s =>
      withHandlers allowEmptyReject couldBeError getDeclaredVariables (.lit s) (some [])
  | .member obj prop computed =>
      withHandlers allowEmptyReject couldBeError getDeclaredVariables
        (.member obj prop computed) (do
          let a ← analyzeExpr allowEmptyReject couldBeError getDeclaredVariables obj
          let b ← analyzeExpr allowEmptyReject couldBeError getDeclaredVariables prop
          pure (a ++ b))
  | .call calleeE args =>
      withHandlers allowEmptyReject couldBeError getDeclaredVariables
        (.call calleeE args) (do
          let a ← analyzeExpr allowEmptyReject couldBeError getDeclaredVariables calleeE
          let b ← analyzeList allowEmptyReject couldBeError getDeclaredVariables args
          pure (a ++ b))
  | .newE calleeE args =>
      withHandlers allowEmptyReject couldBeError getDeclaredVariables
        (.newE calleeE args) (do
          let a ← analyzeExpr allowEmptyReject couldBeError getDeclaredVariables calleeE
          let b ← analyzeList allowEmptyReject couldBeError getDeclaredVariables args
          pure (a ++ b))
  | .functionE ps body =>
      withHandlers allowEmptyReject couldBeError getDeclaredVariables
        (.functionE ps body)
        (analyzeList allowEmptyReject couldBeError getDeclaredVariables body)
  | .arrowFunctionE ps body =>
      withHandlers allowEmptyReject couldBeError getDeclaredVariables
        (.arrowFunctionE ps body)
        (analyzeList allowEmptyReject couldBeError getDeclaredVariables body)
  | .other children =>
      withHandlers allowEmptyReject couldBeError getDeclaredVariables
        (.other children)
        (analyzeList allowEmptyReject couldBeError getDeclaredVariables children)

/-- Document-order analysis of a list of sibling nodes. -/
def analyzeList (allowEmptyReject : Bool) (couldBeError : Expr → Bool)
    (getDeclaredVariables : Expr → List VarBinding) : List Expr → Option (List Expr)
  | [] => some []
  | e :: es => do
      let a ← analyzeExpr allowEmptyReject couldBeError getDeclaredVariables e
      let b ← analyzeList allowEmptyReject couldBeError getDeclaredVariables es
      pure (a ++ b)

end

/-- One full run of the rule over a syntax tree: configuration, external
error-likeness predicate and external scope-resolver results in, ordered
violation list out (`none` for the internal fault modelled in
`newExpressionExit`). -/
def analyze (allowEmptyReject : Bool) (couldBeError : Expr → Bool)
    (getDeclaredVariables : Expr → List VarBinding) (tree : Expr) :
    Option (List Expr) :=
  analyzeExpr allowEmptyReject couldBeError getDeclaredVariables tree

/-- The candidate rejection sites produced at a node by the call-site
classifier: the node itself when it is a `CallExpression` accepted by
`isPromiseRejectCall`, before any validation. -/
def callExpressionCandidates (node : Expr) : List Expr :=
  match node with
  | .call _ _ => if isPromiseRejectCall node then [node] else []
  | _ => []

/-- The candidate rejection sites produced at a node by the callback-reject
locator: `newExpressionExit` with the final `checkRejectCall` validation
stripped, so on the successful path it returns every surviving reference's
enclosing call (one candidate per surviving reference), before any
validation.  Guard, lookup and fault behaviour are identical to
`newExpressionExit`. -/
def newExpressionExitCandidates (getDeclaredVariables : Expr → List VarBinding)
    (node : Expr) : Option (List Expr) :=
  match node with
  | .newE calleeE (firstArg :: _) =>
      if calleeIsPromiseIdent calleeE && isFunction firstArg then
        match firstArg.params[1]? with
        | some (Pat.ident secondParamName) =>
            match (getDeclaredVariables firstArg).find?
                (fun binding => binding.name == secondParamName) with
            | some binding =>
                some ((survivingRefs binding).map (fun ref => ref.parent))
            | none => none
        | _ => some []
      else some []
  | _ => some []

/-- One traversal step of the candidate collection, mirroring `withHandlers`
with validation stripped. -/
def withCandidates (getDeclaredVariables : Expr → List VarBinding) (node : Expr)
    (childCands : Option (List Expr)) : Option (List Expr) := do
  let kids ← childCands
  let exitCands ← newExpressionExitCandidates getDeclaredVariables node
  pure (callExpressionCandidates node ++ kids ++ exitCands)

mutual

/-- The candidate rejection sites of a whole run, in traversal order: the
same depth-first pass as `analyzeExpr`, collecting the classifier's and the
locator's candidate sites before the argument validator runs. -/
def candidateSitesExpr (getDeclaredVariables : Expr → List VarBinding) :
    Expr → Option (List Expr)
  | .ident n => withCandidates getDeclaredVariables (.ident n) (some [])
  | .lit s => withCandidates getDeclaredVariables (.lit s) (some [])
  | .member obj prop computed =>
      withCandidates getDeclaredVariables (.member obj prop computed) (do
        let a ← candidateSitesExpr getDeclaredVariables obj
        let b ← candidateSitesExpr getDeclaredVariables prop
        pure (a ++ b))
  | .call calleeE args =>
      withCandidates getDeclaredVariables (.call calleeE args) (do
        let a ← candidateSitesExpr getDeclaredVariables calleeE
        let b ← candidateSitesList getDeclaredVariables args
        pure (a ++ b))
  | .newE calleeE args =>
      withCandidates getDeclaredVariables (.newE calleeE args) (do
        let a ← candidateSitesExpr getDeclaredVariables calleeE
        let b ← candidateSitesList getDeclaredVariables args
        pure (a ++ b))
  | .functionE ps body =>
      withCandidates getDeclaredVariables (.functionE ps body)
        (candidateSitesList getDeclaredVariables body)
  | .arrowFunctionE ps body =>
      withCandidates getDeclaredVariables (.arrowFunctionE ps body)
        (candidateSitesList getDeclaredVariables body)
  | .other children =>
      withCandidates getDeclaredVariables (.other children)
        (candidateSitesList getDeclaredVariables children)

/-- Document-order candidate collection over sibling nodes. -/
def candidateSitesList (getDeclaredVariables : Expr → List VarBinding) :
    List Expr → Option (List Expr)
  | [] => some []
  | e :: es => do
      let a ← candidateSitesExpr getDeclaredVariables e
      let b ← candidateSitesList getDeclaredVariables es
      pure (a ++ b)

end

/-- The candidate rejection sites of one full run over a tree. -/
def candidateSites (getDeclaredVariables : Expr → List VarBinding)
    (tree : Expr) : Option (List Expr) :=
  candidateSitesExpr getDeclaredVariables tree

/-- A canonical scope resolver satisfying the resolver contract: every simple
identifier parameter of a function-like node is declared as a binding (with
an empty reference list).  Used to instantiate resolver-dependent theorems. -/
def paramResolver (e : Expr) : List VarBinding :=
  e.params.filterMap (fun p =>
    match p with
    | .ident n => some ⟨n, []⟩
    | _ => none)

/-- Sample data for concrete instantiations: a read reference to `reject`
used as the callee of `reject(1)`. -/
def sampleRefOne : Reference :=
  ⟨true, .call (.ident "reject") [.lit "1"], true⟩

/-- Sample data: a read reference to `reject` used as the callee of
`reject(2)`. -/
def sampleRefTwo : Reference :=
  ⟨true, .call (.ident "reject") [.lit "2"], true⟩

/-- Sample data: the binding of a `reject` parameter carrying the two sample
references. -/
def sampleBinding : VarBinding :=
  ⟨"reject", [sampleRefOne, sampleRefTwo]⟩

/-- Sample data: the executor callback `(resolve, reject) => {}`. -/
def sampleCallback : Expr :=
  .arrowFunctionE [.ident "resolve", .ident "reject"] []

/-- Sample data: the direct rejection call `Promise.reject(5)`. -/
def sampleDirectReject : Expr :=
  .call (.member (.ident "Promise") (.ident "reject") false) [.lit "5"]

/-- Sample data: a resolver declaring the `reject` binding for every scope. -/
def sampleResolver : Expr → List VarBinding :=
  fun _ => [sampleBinding]

/-- Sample data: a tree holding both a classifier candidate
(`Promise.reject(5)`) and a locator candidate source
(`new Promise((resolve, reject) => ...)`). -/
def sampleTree : Expr :=
  .other [sampleDirectReject, .newE (.ident "Promise") [sampleCallback]]

end PromiseRejectRule

namespace PromiseRejectRule

/-- C1: for a rejection site with at least one argument, the validator reports
a violation iff the first argument fails the error-likeness predicate or is
syntactically the bare identifier `undefined`; in particular the identifier
`undefined` is flagged even when `couldBeError` accepts it. -/
theorem c1_nonempty_violation_iff (allowEmptyReject : Bool)
    (couldBeError : Expr → Bool) (calleeE firstArg : Expr) (rest : List Expr) :
    checkRejectCall allowEmptyReject couldBeError (.call calleeE (firstArg :: rest)) = true ↔
      (couldBeError firstArg = false ∨ firstArg = .ident "undefined") := by
  cases firstArg <;>
    simp [checkRejectCall, Expr.arguments, Bool.or_eq_true, Bool.not_eq_true']

/-- C2: for a rejection site with zero arguments, the validator reports a
violation iff `allowEmptyReject` is `false`. -/
theorem c2_empty_violation_iff (allowEmptyReject : Bool)
    (couldBeError : Expr → Bool) (calleeE : Expr) :
    checkRejectCall allowEmptyReject couldBeError (.call calleeE []) = true ↔
      allowEmptyReject = false := by
  simp [checkRejectCall, Expr.arguments, Bool.not_eq_true']

/-- C3: the call-site classifier accepts a call expression iff its callee is
the member access `Promise.reject` built from the two bare identifiers, with a
non-computed (dot) access; no binding resolution or type information enters
the decision (the classifier is a pure function of the node's shape). -/
theorem c3_classifier_iff (calleeE : Expr) (args : List Expr) :
    isPromiseRejectCall (.call calleeE args) = true ↔
      calleeE = .member (.ident "Promise") (.ident "reject") false := by
  cases calleeE with
  | member obj prop computed =>
      cases obj <;> cases prop <;> cases computed <;>
        simp [isPromiseRejectCall, Expr.callee, isSpecificMemberAccess]
  | _ => simp [isPromiseRejectCall, Expr.callee, isSpecificMemberAccess]

/-- C7: the validator's outcome depends only on whether the argument list is
empty and, when it is not, on the first argument: the callee and any
arguments beyond the first never change the decision. -/
theorem c7_only_first_argument_matters (allowEmptyReject : Bool)
    (couldBeError : Expr → Bool) (callee1 callee2 firstArg : Expr)
    (rest1 rest2 : List Expr) :
    checkRejectCall allowEmptyReject couldBeError (.call callee1 (firstArg :: rest1)) =
      checkRejectCall allowEmptyReject couldBeError (.call callee2 (firstArg :: rest2)) ∧
    checkRejectCall allowEmptyReject couldBeError (.call callee1 []) =
      checkRejectCall allowEmptyReject couldBeError (.call callee2 []) :=
  ⟨rfl, rfl⟩

/-- C4: a promise-constructor call whose first argument is not function-like,
or whose callback declares fewer than two parameters, or whose second
parameter is not a simple identifier pattern, yields zero rejection sites
from the locator and raises no fault (the handler returns `some []`). -/
theorem c4_unanalyzable_callback_skipped (allowEmptyReject : Bool)
    (couldBeError : Expr → Bool) (getDeclaredVariables : Expr → List VarBinding)
    (firstArg : Expr) (rest : List Expr)
    (h : isFunction firstArg = false ∨ firstArg.params.length < 2 ∨
      ∃ p, firstArg.params[1]? = some p ∧ ∀ n, p ≠ Pat.ident n) :
    newExpressionExit allowEmptyReject couldBeError getDeclaredVariables
      (.newE (.ident "Promise") (firstArg :: rest)) = some [] := by
  rcases h with h | h | ⟨p, hp, hnp⟩
  · simp [newExpressionExit, h]
  · have hq : firstArg.params[1]? = none := List.getElem?_eq_none (by omega)
    cases hf : isFunction firstArg <;>
      simp [newExpressionExit, hf, hq, calleeIsPromiseIdent]
  · cases p <;>
      first
        | exact absurd rfl (hnp _)
        | cases hf : isFunction firstArg <;>
            simp [newExpressionExit, hf, hp, calleeIsPromiseIdent]

/-- Witness for C4: a concrete promise construction whose callback argument
is the literal `5`, hence not function-like. -/
theorem c4_witness :
    isFunction (Expr.lit "5") = false ∧
    newExpressionExit false (fun _ => true) (fun _ => [])
      (.newE (.ident "Promise") [.lit "5"]) = some [] :=
  ⟨rfl, c4_unanalyzable_callback_skipped false (fun _ => true) (fun _ => [])
    (.lit "5") [] (Or.inl rfl)⟩

/-- C5: a reference of the reject binding survives the locator's filter iff
it is a read reference whose immediately enclosing node is a call expression
and whose identifier is that call's callee; writes, argument usages and bare
value usages are discarded. -/
theorem c5_reference_filter_iff (binding : VarBinding) (ref : Reference) :
    ref ∈ survivingRefs binding ↔
      ref ∈ binding.references ∧ ref.isRead = true ∧
        ref.parent.isCallExpression = true ∧ ref.isCallee = true := by
  simp [survivingRefs, List.mem_filter, and_assoc]
  tauto

/-- Helper: the `CallExpression` handler reports exactly the classifier's
candidate sites that fail the argument validator. -/
theorem callExpressionHandler_eq_filterCandidates (allowEmptyReject : Bool)
    (couldBeError : Expr → Bool) (node : Expr) :
    callExpressionHandler allowEmptyReject couldBeError node =
      (callExpressionCandidates node).filter
        (fun site => checkRejectCall allowEmptyReject couldBeError site) := by
  cases node with
  | call calleeE args =>
      cases hc : isPromiseRejectCall (.call calleeE args) <;>
        cases hr : checkRejectCall allowEmptyReject couldBeError (.call calleeE args) <;>
          simp [callExpressionHandler, callExpressionCandidates, hc, hr]
  | ident n => rfl
  | lit s => rfl
  | member obj prop computed => rfl
  | newE calleeE args => rfl
  | functionE ps body => rfl
  | arrowFunctionE ps body => rfl
  | other children => rfl

/-- Helper: the `NewExpression:exit` handler reports exactly the locator's
candidate sites that fail the argument validator (and faults exactly when
the candidate collection faults). -/
theorem newExpressionExit_eq_filterCandidates (allowEmptyReject : Bool)
    (couldBeError : Expr → Bool) (getDeclaredVariables : Expr → List VarBinding)
    (node : Expr) :
    newExpressionExit allowEmptyReject couldBeError getDeclaredVariables node =
      (newExpressionExitCandidates getDeclaredVariables node).map
        (fun cands => cands.filter
          (fun site => checkRejectCall allowEmptyReject couldBeError site)) := by
  cases node with
  | newE calleeE args =>
      cases args with
      | nil => rfl
      | cons firstArg rest =>
          by_cases hg : (calleeIsPromiseIdent calleeE && isFunction firstArg) = true
          · cases hq : firstArg.params[1]? with
            | none =>
                simp [newExpressionExit, newExpressionExitCandidates, hg, hq]
            | some p =>
                cases p with
                | ident n =>
                    cases hb : (getDeclaredVariables firstArg).find?
                        (fun binding => binding.name == n) with
                    | none =>
                        simp [newExpressionExit, newExpressionExitCandidates,
                          hg, hq, hb]
                    | some binding =>
                        simp [newExpressionExit, newExpressionExitCandidates,
                          hg, hq, hb, List.filter_map, Function.comp]
                        rfl
                | objectPat =>
                    simp [newExpressionExit, newExpressionExitCandidates, hg, hq]
                | arrayPat =>
                    simp [newExpressionExit, newExpressionExitCandidates, hg, hq]
                | assignmentPat =>
                    simp [newExpressionExit, newExpressionExitCandidates, hg, hq]
                | restElement =>
                    simp [newExpressionExit, newExpressionExitCandidates, hg, hq]
          · simp [newExpressionExit, newExpressionExitCandidates, hg]
  | ident n => rfl
  | lit s => rfl
  | member obj prop computed => rfl
  | call calleeE args => rfl
  | functionE ps body => rfl
  | arrowFunctionE ps body => rfl
  | other children => rfl

/-- Helper: sequencing two sibling results commutes with filtering each side
by the validator. -/
theorem appendReports_eq_filter (p : Expr → Bool) (r1 r2 c1 c2 : Option (List Expr))
    (h1 : r1 = c1.map (fun cs => cs.filter p))
    (h2 : r2 = c2.map (fun cs => cs.filter p)) :
    (do
      let a ← r1
      let b ← r2
      pure (a ++ b) : Option (List Expr)) =
      (do
        let a ← c1
        let b ← c2
        pure (a ++ b) : Option (List Expr)).map (fun cs => cs.filter p) := by
  subst h1
  subst h2
  cases c1 <;> cases c2 <;> simp [List.filter_append]

/-- Helper: one traversal step reports exactly the step's candidates failing
the validator, given that the child results are related the same way. -/
theorem withHandlers_eq_filterCandidates (allowEmptyReject : Bool)
    (couldBeError : Expr → Bool) (getDeclaredVariables : Expr → List VarBinding)
    (node : Expr) (childReports childCands : Option (List Expr))
    (h : childReports = childCands.map
      (fun cs => cs.filter (fun site => checkRejectCall allowEmptyReject couldBeError site))) :
    withHandlers allowEmptyReject couldBeError getDeclaredVariables node childReports =
      (withCandidates getDeclaredVariables node childCands).map
        (fun cs => cs.filter
          (fun site => checkRejectCall allowEmptyReject couldBeError site)) := by
  subst h
  simp only [withHandlers, withCandidates,
    newExpressionExit_eq_filterCandidates allowEmptyReject couldBeError
      getDeclaredVariables node,
    callExpressionHandler_eq_filterCandidates allowEmptyReject couldBeError node]
  cases childCands <;>
    cases hc : newExpressionExitCandidates getDeclaredVariables node <;>
      simp [List.filter_append]

mutual

/-- Helper: whole-run relation on a node â the analysis output is the
candidate collection filtered through the argument validator. -/
theorem analyzeExpr_eq_candidates (allowEmptyReject : Bool)
    (couldBeError : Expr → Bool) (getDeclaredVariables : Expr → List VarBinding) :
    (node : Expr) →
      analyzeExpr allowEmptyReject couldBeError getDeclaredVariables node =
        (candidateSitesExpr getDeclaredVariables node).map
          (fun cs => cs.filter
            (fun site => checkRejectCall allowEmptyReject couldBeError site))
  | .ident n =>
      withHandlers_eq_filterCandidates allowEmptyReject couldBeError
        getDeclaredVariables (.ident n) _ (some []) rfl
  | .lit s =>
      withHandlers_eq_filterCandidates allowEmptyReject couldBeError
        getDeclaredVariables (.lit s) _ (some []) rfl
  | .member obj prop computed =>
      withHandlers_eq_filterCandidates allowEmptyReject couldBeError
        getDeclaredVariables (.member obj prop computed) _ _
        (appendReports_eq_filter _ _ _ _ _
          (analyzeExpr_eq_candidates allowEmptyReject couldBeError
            getDeclaredVariables obj)
          (analyzeExpr_eq_candidates allowEmptyReject couldBeError
            getDeclaredVariables prop))
  | .call calleeE args =>
      withHandlers_eq_filterCandidates allowEmptyReject couldBeError
        getDeclaredVariables (.call calleeE args) _ _
        (appendReports_eq_filter _ _ _ _ _
          (analyzeExpr_eq_candidates allowEmptyReject couldBeError
            getDeclaredVariables calleeE)
          (analyzeList_eq_candidates allowEmptyReject couldBeError
            getDeclaredVariables args))
  | .newE calleeE args =>
      withHandlers_eq_filterCandidates allowEmptyReject couldBeError
        getDeclaredVariables (.newE calleeE args) _ _
        (appendReports_eq_filter _ _ _ _ _
          (analyzeExpr_eq_candidates allowEmptyReject couldBeError
            getDeclaredVariables calleeE)
          (analyzeList_eq_candidates allowEmptyReject couldBeError
            getDeclaredVariables args))
  | .functionE ps body =>
      withHandlers_eq_filterCandidates allowEmptyReject couldBeError
        getDeclaredVariables (.functionE ps body) _ _
        (analyzeList_eq_candidates allowEmptyReject couldBeError
          getDeclaredVariables body)
  | .arrowFunctionE ps body =>
      withHandlers_eq_filterCandidates allowEmptyReject couldBeError
        getDeclaredVariables (.arrowFunctionE ps body) _ _
        (analyzeList_eq_candidates allowEmptyReject couldBeError
          getDeclaredVariables body)
  | .other children =>
      withHandlers_eq_filterCandidates allowEmptyReject couldBeError
        getDeclaredVariables (.other children) _ _
        (analyzeList_eq_candidates allowEmptyReject couldBeError
          getDeclaredVariables children)

/-- Helper: whole-run relation on sibling lists. -/
theorem analyzeList_eq_candidates (allowEmptyReject : Bool)
    (couldBeError : Expr → Bool) (getDeclaredVariables : Expr → List VarBinding) :
    (nodes : List Expr) →
      analyzeList allowEmptyReject couldBeError getDeclaredVariables nodes =
        (candidateSitesList getDeclaredVariables nodes).map
          (fun cs => cs.filter
            (fun site => checkRejectCall allowEmptyReject couldBeError site))
  | [] => rfl
  | e :: es =>
      appendReports_eq_filter _ _ _ _ _
        (analyzeExpr_eq_candidates allowEmptyReject couldBeError
          getDeclaredVariables e)
        (analyzeList_eq_candidates allowEmptyReject couldBeError
          getDeclaredVariables es)

end

/-- C6: over a whole run, every candidate rejection site produced by either
the call-site classifier or the callback-reject locator passes through the
argument validator and every failing site is reported, in candidate order
with no early termination: the analysis output is exactly the candidate
list filtered by `checkRejectCall`, the number of emitted diagnostics equals
the number of failing candidate sites, and on the locator's successful path
the candidates are one independent site per surviving reference of the
reject binding. -/
theorem c6_every_candidate_validated (allowEmptyReject : Bool)
    (couldBeError : Expr → Bool) (getDeclaredVariables : Expr → List VarBinding)
    (tree : Expr) :
    analyze allowEmptyReject couldBeError getDeclaredVariables tree =
      (candidateSites getDeclaredVariables tree).map
        (fun cands => cands.filter
          (fun site => checkRejectCall allowEmptyReject couldBeError site)) ∧
    (∀ reports cands,
      analyze allowEmptyReject couldBeError getDeclaredVariables tree = some reports →
      candidateSites getDeclaredVariables tree = some cands →
      reports.length = cands.countP
        (fun site => checkRejectCall allowEmptyReject couldBeError site)) ∧
    (∀ (firstArg : Expr) (rest : List Expr) (secondParamName : String)
        (binding : VarBinding),
      isFunction firstArg = true →
      firstArg.params[1]? = some (.ident secondParamName) →
      (getDeclaredVariables firstArg).find?
        (fun b => b.name == secondParamName) = some binding →
      newExpressionExitCandidates getDeclaredVariables
          (.newE (.ident "Promise") (firstArg :: rest)) =
        some ((survivingRefs binding).map (fun ref => ref.parent)) ∧
      ((survivingRefs binding).map (fun ref => ref.parent)).length =
        (survivingRefs binding).length) := by
  refine ⟨analyzeExpr_eq_candidates allowEmptyReject couldBeError
    getDeclaredVariables tree, ?_, ?_⟩
  · intro reports cands hr hc
    have h := analyzeExpr_eq_candidates allowEmptyReject couldBeError
      getDeclaredVariables tree
    simp only [analyze] at hr
    simp only [candidateSites] at hc
    rw [h, hc] at hr
    simp only [Option.map_some', Option.some.injEq] at hr
    rw [← hr, List.countP_eq_length_filter]
  · intro firstArg rest secondParamName binding hf hp hb
    refine ⟨?_, List.length_map _ _⟩
    simp [newExpressionExitCandidates, calleeIsPromiseIdent, hf, hp, hb]

/-- Witness for C6: a concrete tree holding both a direct `Promise.reject(5)`
call and `new Promise((resolve, reject) => ...)` with two surviving
`reject(...)` references; the run output is the filtered candidate list, the
diagnostic count equals the failing-candidate count (three), and the locator
contributes one candidate per surviving reference. -/
theorem c6_witness :
    isFunction sampleCallback = true ∧
    sampleCallback.params[1]? = some (.ident "reject") ∧
    (sampleResolver sampleCallback).find?
      (fun b => b.name == "reject") = some sampleBinding ∧
    analyze false (fun _ => false) sampleResolver sampleTree =
      (candidateSites sampleResolver sampleTree).map
        (fun cands => cands.filter
          (fun site => checkRejectCall false (fun _ => false) site)) ∧
    analyze false (fun _ => false) sampleResolver sampleTree =
      some [sampleDirectReject, sampleRefOne.parent, sampleRefTwo.parent] ∧
    candidateSites sampleResolver sampleTree =
      some [sampleDirectReject, sampleRefOne.parent, sampleRefTwo.parent] ∧
    [sampleDirectReject, sampleRefOne.parent, sampleRefTwo.parent].length =
      [sampleDirectReject, sampleRefOne.parent, sampleRefTwo.parent].countP
        (fun site => checkRejectCall false (fun _ => false) site) ∧
    newExpressionExitCandidates sampleResolver
        (.newE (.ident "Promise") [sampleCallback]) =
      some ((survivingRefs sampleBinding).map (fun ref => ref.parent)) := by
  have h := c6_every_candidate_validated false (fun _ => false)
    sampleResolver sampleTree
  refine ⟨rfl, rfl, rfl, h.1, rfl, rfl,
    h.2.1 [sampleDirectReject, sampleRefOne.parent, sampleRefTwo.parent]
      [sampleDirectReject, sampleRefOne.parent, sampleRefTwo.parent] rfl rfl, ?_⟩
  exact (h.2.2 sampleCallback [] "reject" sampleBinding rfl rfl rfl).1

/-- C8: the analysis is deterministic and idempotent — it is a pure function
of the tree, the external resolver results, the error-likeness predicate and
the configuration, so a second run over the same unchanged inputs produces
the identical, identically ordered violation list. -/
theorem c8_two_runs_identical (allowEmptyReject : Bool)
    (couldBeError : Expr → Bool) (getDeclaredVariables : Expr → List VarBinding)
    (tree : Expr) :
    analyze allowEmptyReject couldBeError getDeclaredVariables tree =
      analyze allowEmptyReject couldBeError getDeclaredVariables tree := rfl

/-- C9: under the scope-resolver contract — every simple identifier parameter
of a function-like node is declared as a binding — the locator's
first-binding lookup always succeeds and the handler never faults: it returns
`some` report list on every node. -/
theorem c9_locator_lookup_total (allowEmptyReject : Bool)
    (couldBeError : Expr → Bool) (getDeclaredVariables : Expr → List VarBinding)
    (hdecl : ∀ e : Expr, ∀ n : String, Pat.ident n ∈ e.params →
      ∃ b ∈ getDeclaredVariables e, b.name = n)
    (node : Expr) :
    ∃ reports, newExpressionExit allowEmptyReject couldBeError
      getDeclaredVariables node = some reports := by
  cases node with
  | newE calleeE args =>
      cases args with
      | nil => exact ⟨[], rfl⟩
      | cons firstArg rest =>
          by_cases hg : (calleeIsPromiseIdent calleeE && isFunction firstArg) = true
          · cases hq : firstArg.params[1]? with
            | none => exact ⟨[], by simp [newExpressionExit, hg, hq]⟩
            | some p =>
                cases p with
                | ident n =>
                    obtain ⟨b, hb, hname⟩ :=
                      hdecl firstArg n (List.getElem?_mem hq)
                    have hsome : ((getDeclaredVariables firstArg).find?
                        (fun binding => binding.name == n)).isSome := by
                      rw [List.find?_isSome]
                      exact ⟨b, hb, by simp [hname]⟩
                    obtain ⟨binding, hfind⟩ := Option.isSome_iff_exists.mp hsome
                    exact ⟨(survivingRefs binding).filter
                        (fun ref => checkRejectCall allowEmptyReject couldBeError ref.parent)
                      |>.map (fun ref => ref.parent),
                      by simp [newExpressionExit, hg, hq, hfind]⟩
                | objectPat => exact ⟨[], by simp [newExpressionExit, hg, hq]⟩
                | arrayPat => exact ⟨[], by simp [newExpressionExit, hg, hq]⟩
                | assignmentPat => exact ⟨[], by simp [newExpressionExit, hg, hq]⟩
                | restElement => exact ⟨[], by simp [newExpressionExit, hg, hq]⟩
          · exact ⟨[], by simp [newExpressionExit, hg]⟩
  | ident n => exact ⟨[], rfl⟩
  | lit s => exact ⟨[], rfl⟩
  | member obj prop computed => exact ⟨[], rfl⟩
  | call calleeE args => exact ⟨[], rfl⟩
  | functionE ps body => exact ⟨[], rfl⟩
  | arrowFunctionE ps body => exact ⟨[], rfl⟩
  | other children => exact ⟨[], rfl⟩

/-- Witness for C9: the canonical resolver `paramResolver` satisfies the
contract, and the handler succeeds on a concrete
`new Promise((resolve, reject) => ...)` node. -/
theorem c9_witness :
    (∀ e : Expr, ∀ n : String, Pat.ident n ∈ e.params →
      ∃ b ∈ paramResolver e, b.name = n) ∧
    ∃ reports, newExpressionExit false (fun _ => true) paramResolver
      (.newE (.ident "Promise") [sampleCallback]) = some reports :=
  ⟨fun _ n hn => ⟨⟨n, []⟩, List.mem_filterMap.mpr ⟨.ident n, hn, rfl⟩, rfl⟩,
    c9_locator_lookup_total false (fun _ => true) paramResolver
      (fun _ n hn => ⟨⟨n, []⟩, List.mem_filterMap.mpr ⟨.ident n, hn, rfl⟩, rfl⟩)
      (.newE (.ident "Promise") [sampleCallback])⟩

/-- C10: the callback-reject locator fires only on `new` expressions whose
callee is the bare identifier `Promise`: on every other node — a plain call
`Promise(cb)`, a construction through a member access such as
`new window.Promise(cb)`, or any other shape — the handler produces no sites
at all. -/
theorem c10_only_bare_promise_new (allowEmptyReject : Bool)
    (couldBeError : Expr → Bool) (getDeclaredVariables : Expr → List VarBinding)
    (node : Expr)
    (h : isBarePromiseNew node = false) :
    newExpressionExit allowEmptyReject couldBeError getDeclaredVariables node =
      some [] := by
  cases node with
  | newE calleeE args =>
      have hc : calleeIsPromiseIdent calleeE = false := h
      cases args with
      | nil => rfl
      | cons firstArg rest => simp [newExpressionExit, hc]
  | ident n => rfl
  | lit s => rfl
  | member obj prop computed => rfl
  | call calleeE args => rfl
  | functionE ps body => rfl
  | arrowFunctionE ps body => rfl
  | other children => rfl

/-- Witness for C10: the plain call `Promise(cb)` (no `new`) yields no
callback-derived sites. -/
theorem c10_witness :
    isBarePromiseNew (.call (.ident "Promise") [sampleCallback]) = false ∧
    newExpressionExit false (fun _ => true) (fun _ => [])
      (.call (.ident "Promise") [sampleCallback]) = some [] :=
  ⟨rfl, c10_only_bare_promise_new false (fun _ => true) (fun _ => [])
    (.call (.ident "Promise") [sampleCallback]) rfl⟩

end PromiseRejectRule
